import Mathlib

attribute [local semireducible] Rat.add Rat.mul Rat.sub Rat.inv

/-!
# GlassesValidator core pipeline: a shallow embedding

This file embeds the geometric gaze-validation pipeline of GlassesValidator
(`b_detectMarkers.py`, `c_gazeToBoard.py`, `e1_computeOffsetsToTargets.py`,
`e2_determineFixationIntervals.py`) in Lean 4 and proves properties of it.

Numbers are modelled as exact rationals extended with an explicit
not-a-number element (`FP`), so that NaN propagation through the arithmetic
mirrors IEEE NaN propagation in the numpy code.  External library
capabilities (OpenCV homography fitting, `estimatePoseBoard`,
`undistortPoints`, `Rodrigues`, trigonometric functions) are taken as
function parameters: the theorems hold for every implementation of those
capabilities, and the embedding records exactly which data is fed to them.
-/

/-- A floating-point scalar, modelled as an exact rational extended with an
explicit not-a-number element.  Arithmetic propagates `nan` like IEEE NaN. -/
inductive FP where
  | nan : FP
  | num : ℚ → FP
deriving DecidableEq, Repr

namespace FP

def add : FP → FP → FP
  | nan, _ => nan
  | _, nan => nan
  | num a, num b => num (a + b)

def sub : FP → FP → FP
  | nan, _ => nan
  | _, nan => nan
  | num a, num b => num (a - b)

def mul : FP → FP → FP
  | nan, _ => nan
  | _, nan => nan
  | num a, num b => num (a * b)

/-- Division; division by zero is modelled as `nan`. -/
def div : FP → FP → FP
  | nan, _ => nan
  | _, nan => nan
  | num a, num b => if b = 0 then nan else num (a / b)

def neg : FP → FP
  | nan => nan
  | num a => num (-a)

def isNan : FP → Bool
  | nan => true
  | num _ => false

end FP

/-- A 2-vector of `FP` scalars (board-plane points, 2D gaze points). -/
abbrev FP2 := FP × FP

/-- A 3-vector of `FP` scalars (camera-frame points, rotation/translation
vectors, gaze origins and directions). -/
abbrev FP3 := FP × FP × FP

/-- The all-NaN 3-vector, `np.full((3,), np.nan)`. -/
def fp3nan : FP3 := (FP.nan, FP.nan, FP.nan)

/-- The zero 3-vector, `np.zeros(3)`. -/
def fp3zero : FP3 := (FP.num 0, FP.num 0, FP.num 0)

def FP3.add (a b : FP3) : FP3 :=
  (FP.add a.1 b.1, FP.add a.2.1 b.2.1, FP.add a.2.2 b.2.2)

def FP3.sub (a b : FP3) : FP3 :=
  (FP.sub a.1 b.1, FP.sub a.2.1 b.2.1, FP.sub a.2.2 b.2.2)

def FP3.neg (a : FP3) : FP3 := (FP.neg a.1, FP.neg a.2.1, FP.neg a.2.2)

/-- Scalar times 3-vector. -/
def FP3.smul (t : FP) (a : FP3) : FP3 :=
  (FP.mul t a.1, FP.mul t a.2.1, FP.mul t a.2.2)

/-- Dot product of two 3-vectors. -/
def FP3.dot (a b : FP3) : FP :=
  FP.add (FP.add (FP.mul a.1 b.1) (FP.mul a.2.1 b.2.1)) (FP.mul a.2.2 b.2.2)

/-- `true` when some component is NaN. -/
def FP3.hasNan (a : FP3) : Bool := a.1.isNan || a.2.1.isNan || a.2.2.isNan

/-- A 3×3 matrix of `FP` scalars, stored as its three rows. -/
abbrev Mat3 := FP3 × FP3 × FP3

/-- Matrix–vector product. -/
def Mat3.mulVec (m : Mat3) (v : FP3) : FP3 :=
  (FP3.dot m.1 v, FP3.dot m.2.1 v, FP3.dot m.2.2 v)

/-! ## e2_determineFixationIntervals.py: the fixation matcher

`process` (lines 98–113) greedily assigns each target its nearest
unclaimed, sufficiently long fixation, using a distance array in which
claimed and too-short fixations are set to infinity and `np.argmin`
selects the assigned fixation.

Distances: the source computes `np.hypot(dx, dy) = sqrt(dx² + dy²)` and
uses the distances only through `np.argmin`.  Since `sqrt` is strictly
monotone on the nonnegatives, the argmin over the squared distances is the
same index; we store the square (`hypotSq`) to stay in exact rationals. -/

/-- A fixation as used by the matcher: the fields of the `fix` dict read by
`e2_determineFixationIntervals.process` (`startT`, `endT`, `dur`, `xpos`,
`ypos`). -/
structure Fixation where
  startT : ℚ
  endT : ℚ
  dur : ℚ
  xpos : ℚ
  ypos : ℚ
deriving DecidableEq, Repr

/-- A distance-array entry: a finite value or `math.inf`. -/
inductive DistE where
  | inf : DistE
  | fin : ℚ → DistE
deriving DecidableEq, Repr

/-- Float `<` restricted to these values: `inf < x` is always false,
`fin a < inf` is true, finite values compare as rationals. -/
def DistE.ltB : DistE → DistE → Bool
  | inf, _ => false
  | fin _, inf => true
  | fin a, fin b => decide (a < b)

/-- `np.argmin` scan: carries the index of the first minimum seen so far;
a later entry replaces it only when strictly smaller. -/
def argminAux : List DistE → Nat → Nat → DistE → Nat
  | [], _, best, _ => best
  | v :: rest, i, best, bestV =>
    if DistE.ltB v bestV then argminAux rest (i + 1) i v
    else argminAux rest (i + 1) best bestV

/-- `np.argmin` over a distance array: index of the first occurrence of the
minimum; on an all-`inf` array every element is the minimum, so the result
is index 0 (as in numpy). -/
def argminD : List DistE → Nat
  | [] => 0
  | v :: rest => argminAux rest 1 0 v

/-- Squared `np.hypot`: see the note above on monotonicity of `sqrt`. -/
def hypotSq (dx dy : ℚ) : ℚ := dx * dx + dy * dy

/-- The distance-array entry for one fixation paired with its `used` flag:
`dist[used] = inf` and `dist[fix.dur < minDur] = inf`, else the distance
from the fixation's mean position to the target
(`e2_determineFixationIntervals.py` lines 108–110). -/
def fixDist (minDur : ℚ) (tgt : ℚ × ℚ) : Fixation × Bool → DistE
  | (f, u) =>
    if u then DistE.inf
    else if f.dur < minDur then DistE.inf
    else DistE.fin (hypotSq (f.xpos - tgt.1) (f.ypos - tgt.2))

/-- One iteration of the target loop (lines 103–113): if all fixations are
used the target stays unassigned (`continue`); otherwise the argmin of the
distance array is selected and marked used. -/
def matchStep (minDur : ℚ) (fixs : List Fixation) (used : List Bool)
    (tgt : ℚ × ℚ) : Option Nat × List Bool :=
  if used.all (fun b => b) then (none, used)
  else
    let dist := (fixs.zip used).map (fixDist minDur tgt)
    let iFix := argminD dist
    (some iFix, used.set iFix true)

/-- The target loop, threading the `used` array through the targets in
iteration order. -/
def matchGo (minDur : ℚ) (fixs : List Fixation) :
    List (ℚ × ℚ) → List Bool → List (Option Nat)
  | [], _ => []
  | t :: ts, used =>
    let r := matchStep minDur fixs used t
    r.1 :: matchGo minDur fixs ts r.2

/-- The fixation matcher of `e2_determineFixationIntervals.process`
(lines 98–113): for each target, in order, the index of the fixation
assigned to it (`none` models `selected[i] == -999`, i.e. unassigned). -/
def matchFixations (minDur : ℚ) (fixs : List Fixation)
    (targets : List (ℚ × ℚ)) : List (Option Nat) :=
  matchGo minDur fixs targets (List.replicate fixs.length false)

/-- Claim C1 (code bug): the matcher's nearest-eligible assignment works as
claimed when an eligible fixation exists — with durations [200, 100, 300] ms
at distances [5, 1, 1] mm and threshold 150 ms the third fixation wins — but
the final clause of the claim fails: for a target for which every distance
is infinite (here: the only fixation lasts 100 ms < 150 ms and is thus
ineligible), `np.argmin` of the all-infinite distance array returns index 0,
so the code assigns the too-short fixation instead of leaving the target
unassigned, contradicting the code's own comment "make sure that fixations
that are too short are not selected". -/
theorem claim_C1_too_short_fixation_assigned :
    matchFixations 150
      [⟨0, 200, 200, 5, 0⟩, ⟨0, 100, 100, 1, 0⟩, ⟨0, 300, 300, 0, 1⟩]
      [(0, 0)] = [some 2]
    ∧ matchFixations 150 [⟨0, 100, 100, 0, 0⟩] [(0, 0)] = [some 0] := by
  exact ⟨by decide, by decide⟩

/-- Claim C4 (code bug): assignment is not injective.  With two targets and
two fixations that are both shorter than the 150 ms threshold (zero eligible
fixations), the claim says both targets end up unassigned; instead
`np.argmin` over the all-infinite distance arrays returns index 0 both
times, so both targets are assigned fixation 0 — the same fixation twice,
contradicting the code's own comment "make sure fixations already bound to
a target are not used again". -/
theorem claim_C4_double_assignment :
    matchFixations 150 [⟨0, 100, 100, 0, 0⟩, ⟨0, 100, 100, 9, 9⟩]
      [(0, 0), (10, 10)] = [some 0, some 0] := by decide

/-! ## b_detectMarkers.py: per-frame homography and pose

`process` (lines 170–220) detects markers on each frame; when at least 4
markers (of any kind) are detected it undistorts their corners
(`cv2.undistortPoints`, external) and calls `estimateTransform`, which
collects the corners of the detected markers whose id is known and, when at
least 4 matched corner points exist, fits a homography
(`cv2.findHomography`, external).  Only then is `cv2.aruco.estimatePoseBoard`
(external) invoked, and one row holding the homography, the pose vectors
and the marker count used for the pose is written.

The external capabilities appear as parameters: `undistort` for
`cv2.undistortPoints` and `poseEst` for `cv2.aruco.estimatePoseBoard`; the
embedding records the correspondence lists handed to `cv2.findHomography`
instead of the fitted 3×3 matrix, since the fit itself is a library call. -/

/-- A 2D pixel or board-plane point. -/
abbrev Pt2 := ℚ × ℚ

/-- A 3-vector of plain rationals (pose rotation/translation vectors). -/
abbrev Pt3 := ℚ × ℚ × ℚ

/-- The matching loop of `estimateTransform` (`b_detectMarkers.py` lines
58–62): walk the detected markers in detection order; for each detected id
present in the known-marker table, append its corner points to `pts_src`
and the known board corners to `pts_dst`.  Every corner of every matched
marker is kept, with no deduplication. -/
def collectCorrs (known : List (Int × List Pt2)) :
    List (Int × List Pt2) → List Pt2 × List Pt2
  | [] => ([], [])
  | d :: rest =>
    match known.lookup d.1 with
    | some bs =>
      let r := collectCorrs known rest
      (d.2 ++ r.1, bs ++ r.2)
    | none => collectCorrs known rest

/-- `estimateTransform` (lines 54–72): the correspondences fed to
`cv2.findHomography` when at least 4 matched corner points exist; `none`
models the `return None, False` branch. -/
def estimateTransform (known dets : List (Int × List Pt2)) :
    Option (List Pt2 × List Pt2) :=
  let r := collectCorrs known dets
  if r.1.length < 4 then none else some r

/-- Undistortion of every detected corner
(`cornersU = [cv2.undistortPoints(x, ...) for x in corners]`, line 183). -/
def undistortDets (undistort : Pt2 → Pt2) (dets : List (Int × List Pt2)) :
    List (Int × List Pt2) :=
  dets.map (fun d => (d.1, d.2.map undistort))

/-- One row of `transformations.tsv` (lines 202–209): the homography input
correspondences together with the pose fields (`poseNMarker`, `poseRvec`,
`poseTvec`) — a single row always carries both. -/
structure FrameRow where
  hSrc : List Pt2
  hDst : List Pt2
  poseNMarker : Nat
  poseRvec : Pt3
  poseTvec : Pt3
deriving DecidableEq, Repr

/-- The per-frame body of `b_detectMarkers.process` (lines 180–209):
`np.all(ids != None)` and `len(ids) >= 4` gate on the number of detected
markers of any kind; the homography is attempted on the undistorted
corners; only when it succeeds is the pose estimated (on the original,
distorted corners, as `estimatePoseBoard` takes the calibration itself) and
a row produced. -/
def processFrame (undistort : Pt2 → Pt2)
    (poseEst : List (Int × List Pt2) → Nat × Pt3 × Pt3)
    (known dets : List (Int × List Pt2)) : Option FrameRow :=
  if 4 ≤ dets.length then
    match estimateTransform known (undistortDets undistort dets) with
    | some r =>
      let p := poseEst dets
      some ⟨r.1, r.2, p.1, p.2.1, p.2.2⟩
    | none => none
  else none

/-- The number of detected markers whose id is known. -/
def countKnownDetected (known dets : List (Int × List Pt2)) : Nat :=
  (dets.filter (fun d => (known.lookup d.1).isSome)).length

/-- A known-marker table with the single marker 7. -/
def knownB : List (Int × List Pt2) :=
  [(7, [(0, 2), (2, 2), (2, 0), (0, 0)])]

/-- Four detected markers, of which only marker 7 is known. -/
def detsB : List (Int × List Pt2) :=
  [(7, [(10, 10), (20, 10), (20, 20), (10, 20)]),
   (100, [(30, 30), (40, 30), (40, 40), (30, 40)]),
   (101, [(50, 50), (60, 50), (60, 60), (50, 60)]),
   (102, [(70, 70), (80, 70), (80, 80), (70, 80)])]

/-- A pose estimate that fails: zero markers used. -/
def poseFailB : List (Int × List Pt2) → Nat × Pt3 × Pt3 :=
  fun _ => (0, (0, 0, 0), (0, 0, 0))

/-- A pose estimate that succeeds on four markers. -/
def poseGoodB : List (Int × List Pt2) → Nat × Pt3 × Pt3 :=
  fun _ => (4, (1, 2, 3), (4, 5, 6))

/-- `collectCorrs` collects exactly the corners of the matched markers, in
detection order, keeping every corner of every matched marker. -/
theorem collectCorrs_eq_bind (known : List (Int × List Pt2)) :
    ∀ dets, collectCorrs known dets =
      ((dets.filter (fun d => (known.lookup d.1).isSome)).flatMap (fun d => d.2),
       (dets.filter (fun d => (known.lookup d.1).isSome)).flatMap
         (fun d => (known.lookup d.1).getD []))
  | [] => rfl
  | d :: rest => by
    have ih := collectCorrs_eq_bind known rest
    cases h : known.lookup d.1 with
    | none => simp [collectCorrs, h, List.filter_cons, ih]
    | some bs => simp [collectCorrs, h, List.filter_cons, ih]

/-- Claim C3 counterexample: a frame with 4 detected markers of which only 1
is known (marker 7).  The claim says that with fewer than 4 known markers no
pose/homography row is produced; but `len(ids) >= 4` counts all detected
markers and `estimateTransform` only requires 4 matched corner points — one
known marker contributes 4 — so a row is produced. -/
theorem claim_C3_counterexample :
    countKnownDetected knownB detsB = 1
    ∧ (processFrame id poseGoodB knownB detsB).isSome = true := by decide

/-- `processFrame` in closed form: a row is produced exactly when at least
4 markers are detected and at least 4 matched corner points exist, and the
row contents are the collected correspondences plus the pose estimate. -/
theorem processFrame_eq (undistort : Pt2 → Pt2)
    (poseEst : List (Int × List Pt2) → Nat × Pt3 × Pt3)
    (known dets : List (Int × List Pt2)) :
    processFrame undistort poseEst known dets =
      if 4 ≤ dets.length ∧
          4 ≤ (collectCorrs known (undistortDets undistort dets)).1.length then
        some ⟨(collectCorrs known (undistortDets undistort dets)).1,
              (collectCorrs known (undistortDets undistort dets)).2,
              (poseEst dets).1, (poseEst dets).2.1, (poseEst dets).2.2⟩
      else none := by
  rw [processFrame, estimateTransform]
  by_cases hlen : 4 ≤ dets.length
  · by_cases hc : (collectCorrs known (undistortDets undistort dets)).1.length < 4
    · have h2 : ¬ 4 ≤ (collectCorrs known (undistortDets undistort dets)).1.length := by
        omega
      simp [hlen, hc, h2]
    · have h2 : 4 ≤ (collectCorrs known (undistortDets undistort dets)).1.length := by
        omega
      simp [hlen, hc, h2]
  · simp [hlen]

/-- Claim C3 as amended: a row is produced iff at least 4 markers of any
kind are detected and at least 4 corner points belong to known markers;
when one is produced, the homography is solved from the undistorted corner
pixels of every corner of every matched marker, in detection order and with
no deduplication, mapped to the known board-plane corners. -/
theorem claim_C3_amended (undistort : Pt2 → Pt2)
    (poseEst : List (Int × List Pt2) → Nat × Pt3 × Pt3)
    (known dets : List (Int × List Pt2)) :
    ((processFrame undistort poseEst known dets).isSome ↔
      4 ≤ dets.length ∧
      4 ≤ ((dets.filter (fun d => (known.lookup d.1).isSome)).flatMap
            (fun d => d.2.map undistort)).length)
    ∧ ∀ r, processFrame undistort poseEst known dets = some r →
        r.hSrc = (dets.filter (fun d => (known.lookup d.1).isSome)).flatMap
          (fun d => d.2.map undistort)
        ∧ r.hDst = (dets.filter (fun d => (known.lookup d.1).isSome)).flatMap
          (fun d => (known.lookup d.1).getD []) := by
  have hfilter : (undistortDets undistort dets).filter
      (fun d => (known.lookup d.1).isSome) =
      (dets.filter (fun d => (known.lookup d.1).isSome)).map
        (fun d => (d.1, d.2.map undistort)) := by
    simp [undistortDets, List.filter_map]
    rfl
  have hcc := collectCorrs_eq_bind known (undistortDets undistort dets)
  rw [hfilter] at hcc
  have hsrc : (collectCorrs known (undistortDets undistort dets)).1 =
      (dets.filter (fun d => (known.lookup d.1).isSome)).flatMap
        (fun d => d.2.map undistort) := by
    rw [hcc]; simp [List.flatMap_map]
  have hdst : (collectCorrs known (undistortDets undistort dets)).2 =
      (dets.filter (fun d => (known.lookup d.1).isSome)).flatMap
        (fun d => (known.lookup d.1).getD []) := by
    rw [hcc]; simp [List.flatMap_map]
  rw [← hsrc, ← hdst, processFrame_eq]
  by_cases h : 4 ≤ dets.length ∧
      4 ≤ (collectCorrs known (undistortDets undistort dets)).1.length
  · simp only [if_pos h]
    refine ⟨by simpa using h, ?_⟩
    intro r hr
    cases hr
    exact ⟨rfl, rfl⟩
  · simp only [if_neg h]
    constructor
    · simpa using h
    · intro r hr
      cases hr

/-- Witness for the amended claim C3: instantiated at the concrete frame
`detsB` (4 detected markers, 1 known), the produced row's homography source
points are exactly the 4 undistorted corners of the matched marker 7. -/
theorem claim_C3_witness :
    ([(10, 10), (20, 10), (20, 20), (10, 20)] : List Pt2) =
      (detsB.filter (fun d => (knownB.lookup d.1).isSome)).flatMap
        (fun d => d.2.map id) :=
  ((claim_C3_amended id poseGoodB knownB detsB).2
    ⟨[(10, 10), (20, 10), (20, 20), (10, 20)],
     [(0, 2), (2, 2), (2, 0), (0, 0)], 4, (1, 2, 3), (4, 5, 6)⟩
    (by decide)).1

/-- Claim C5 counterexample: pose and homography are not independent
outputs.  First conjunct: with a failing pose estimate (`poseFailB`, zero
markers used) but a succeeding homography, the row is still produced and
carries the pose fields — so the pose output is present although its own
estimate failed.  Second conjunct: with an empty known-marker table the
homography fails, and no row is produced at all even though the pose
estimator (`poseGoodB`) would succeed — a 3D pose is never output without a
homography, because `estimatePoseBoard` is only reached inside the
`if status:` branch (`b_detectMarkers.py` lines 185–209). -/
theorem claim_C5_counterexample :
    Option.map FrameRow.poseNMarker (processFrame id poseFailB knownB detsB) =
      some 0
    ∧ processFrame id poseGoodB [] detsB = none := by decide

/-- Claim C5 as amended: the 3D pose is estimated only for frames whose
homography estimation succeeded, and every produced row carries both the
homography correspondences and the pose fields (pose validity is signalled
by the marker-count-used value, which may be 0).  A frame thus never has a
3D pose without a homography, and a frame row is absent exactly when fewer
than 4 markers were detected or the homography failed. -/
theorem claim_C5_amended (undistort : Pt2 → Pt2)
    (poseEst : List (Int × List Pt2) → Nat × Pt3 × Pt3)
    (known dets : List (Int × List Pt2)) :
    (processFrame undistort poseEst known dets = none ↔
      dets.length < 4 ∨
      estimateTransform known (undistortDets undistort dets) = none)
    ∧ ∀ r, processFrame undistort poseEst known dets = some r →
        estimateTransform known (undistortDets undistort dets) =
          some (r.hSrc, r.hDst)
        ∧ (r.poseNMarker, r.poseRvec, r.poseTvec) = poseEst dets := by
  rw [processFrame_eq, estimateTransform]
  by_cases hlen : 4 ≤ dets.length
  · by_cases hc : (collectCorrs known (undistortDets undistort dets)).1.length < 4
    · have h2 : ¬ (4 ≤ dets.length ∧
          4 ≤ (collectCorrs known (undistortDets undistort dets)).1.length) :=
        fun h => absurd h.2 (by omega)
      simp [h2, hc]
    · have h2 : 4 ≤ dets.length ∧
          4 ≤ (collectCorrs known (undistortDets undistort dets)).1.length :=
        ⟨hlen, by omega⟩
      have h3 : ¬ dets.length < 4 := by omega
      simp only [if_pos h2, if_neg hc]
      constructor
      · simp [h3]
      · intro r hr
        cases hr
        exact ⟨rfl, rfl⟩
  · have h2 : ¬ (4 ≤ dets.length ∧
        4 ≤ (collectCorrs known (undistortDets undistort dets)).1.length) :=
      fun h => hlen h.1
    have h3 : dets.length < 4 := by omega
    simp [h2, h3]

/-- Witness for the amended claim C5: at the concrete frame `detsB` with the
failing pose estimator, the produced row's pose fields are exactly the pose
estimator's (failed) output. -/
theorem claim_C5_witness :
    ((0 : Nat), ((0 : ℚ), (0 : ℚ), (0 : ℚ)), ((0 : ℚ), (0 : ℚ), (0 : ℚ))) =
      poseFailB detsB :=
  ((claim_C5_amended id poseFailB knownB detsB).2
    ⟨[(10, 10), (20, 10), (20, 20), (10, 20)],
     [(0, 2), (2, 2), (2, 0), (0, 0)], 0, (0, 0, 0), (0, 0, 0)⟩
    (by decide)).2

/-! ## c_gazeToBoard.py: plane-ray intersection -/

/-- Modelled from the spec: `utils.intersect_plane_ray` is called by
`c_gazeToBoard.process` (lines 210 and 230) but the `utils` module is not
among the provided sources.  Following the spec's words: "compute the
scalar t such that origin + t·direction lies on the plane:
t = dot(normal, point − origin) / dot(normal, direction); the intersection
is origin + t·direction.  Degenerate case (ray parallel to plane,
dot(normal, direction) ≈ 0) yields not-a-number, not an exception."
`eps` is the tolerance of the "≈ 0" test; NaN inputs propagate to a NaN
result through the `FP` arithmetic.  The function is total, so no exception
can be raised. -/
def intersect_plane_ray (eps : ℚ) (planeNormal planePoint rayDirection
    rayOrigin : FP3) : FP3 :=
  match FP3.dot planeNormal rayDirection with
  | FP.nan => fp3nan
  | FP.num d =>
    if |d| < eps then fp3nan
    else
      FP3.add rayOrigin (FP3.smul
        (FP.div (FP3.dot planeNormal (FP3.sub planePoint rayOrigin))
          (FP.num d))
        rayDirection)

/-- Claim C2 (confirmed, against the spec-modelled `intersect_plane_ray`):
whenever dot(normal, direction) is approximately zero (within `eps`) or
itself NaN, the intersection is the all-NaN vector — and being a total
function, no exception is raised; otherwise the result is
origin + t·direction with t = dot(normal, point − origin) / dot(normal,
direction). -/
theorem claim_C2_intersect_plane_ray (eps : ℚ) (n p dir o : FP3) :
    (∀ d : ℚ, FP3.dot n dir = FP.num d → |d| < eps →
      intersect_plane_ray eps n p dir o = fp3nan)
    ∧ (FP3.dot n dir = FP.nan → intersect_plane_ray eps n p dir o = fp3nan)
    ∧ (∀ d : ℚ, FP3.dot n dir = FP.num d → ¬ |d| < eps →
      intersect_plane_ray eps n p dir o =
        FP3.add o (FP3.smul
          (FP.div (FP3.dot n (FP3.sub p o)) (FP.num d)) dir)) := by
  refine ⟨?_, ?_, ?_⟩
  · intro d hd hlt
    rw [intersect_plane_ray, hd]
    simp [hlt]
  · intro hd
    rw [intersect_plane_ray, hd]
  · intro d hd hlt
    rw [intersect_plane_ray, hd]
    simp [hlt]

/-- Witness for claim C2: a ray along the y-axis is parallel to the plane
with normal along the x-axis (the dot product is exactly 0), and the
intersection is the all-NaN vector. -/
theorem claim_C2_witness :
    intersect_plane_ray (1 / 1000000)
      (FP.num 1, FP.num 0, FP.num 0) (FP.num 5, FP.num 5, FP.num 5)
      (FP.num 0, FP.num 1, FP.num 0) (FP.num 0, FP.num 0, FP.num 0) =
      fp3nan :=
  (claim_C2_intersect_plane_ray (1 / 1000000)
    (FP.num 1, FP.num 0, FP.num 0) (FP.num 5, FP.num 5, FP.num 5)
    (FP.num 0, FP.num 1, FP.num 0) (FP.num 0, FP.num 0, FP.num 0)).1
    0 (by decide) (by decide)

/-! ## e1_computeOffsetsToTargets.py: angular offsets to targets

`process` (lines 52–109) reads the gaze-on-board table and, per sample,
per projection method (left eye, right eye, 3D-gaze ray, homography), per
target, computes an angular offset decomposed along the board axes.  A
sample whose frame is absent from the pose table is skipped, leaving its
offsets at their `np.nan` initialisation (lines 69–74).

`cv2.Rodrigues` and the trigonometric helpers (`utils.angle_between`,
`math.atan2/cos/sin`) are irrational-valued library functions; they appear
as parameters so every theorem holds for any implementation. -/

/-- One row of the gaze-on-board table (`utils.GazeWorld`): per-eye ray
origins, per-method camera-frame 3D gaze points and board-plane 2D gaze
points, as read by `e1_computeOffsetsToTargets.process` (lines 58–67). -/
structure GWSample where
  lGazeOrigin : FP3
  rGazeOrigin : FP3
  lGaze3D : FP3
  rGaze3D : FP3
  gaze3DRay : FP3
  gaze3DHomography : FP3
  lGaze2D : FP2
  rGaze2D : FP2
  gaze2DRay : FP2
  gaze2DHomography : FP2
deriving DecidableEq, Repr

/-- The irrational-valued library functions used by the offset computation:
`utils.angle_between` (3D angle between two vectors), `math.atan2`,
`math.cos`, `math.sin`. -/
structure TrigFns where
  angleBetween : FP3 → FP3 → FP
  atan2F : FP → FP → FP
  cosF : FP → FP
  sinF : FP → FP

/-- The per-method data selection of the `for e in range(4)` branch
(lines 78–96): origin, camera-frame 3D gaze point and board-plane 2D gaze
point for each of the four methods 0 = left eye, 1 = right eye,
2 = 3D-gaze ray, 3 = homography; the two camera-centred methods use
`np.zeros(3)` as origin. -/
def methodData (s : GWSample) : Fin 4 → FP3 × FP3 × FP2
  | 0 => (s.lGazeOrigin, s.lGaze3D, s.lGaze2D)
  | 1 => (s.rGazeOrigin, s.rGaze3D, s.rGaze2D)
  | 2 => (fp3zero, s.gaze3DRay, s.gaze2DRay)
  | 3 => (fp3zero, s.gaze3DHomography, s.gaze2DHomography)

/-- The body of the target loop (lines 98–109): place the target on the
board plane in the camera frame (`RtBoard @ [tx, ty, 0, 1]`), take the
angle between the origin→target and origin→gaze vectors, and decompose it
along the board axes using the on-board bearing angle from the target to
the projected gaze point. -/
def e1Offset (fns : TrigFns) (RBoard : Mat3) (tVec : FP3) (s : GWSample)
    (e : Fin 4) (tgt : ℚ × ℚ) : FP2 :=
  let md := methodData s e
  let ori := md.1
  let gaze := md.2.1
  let gazeBoard := md.2.2
  let target := FP3.add
    (Mat3.mulVec RBoard (FP.num tgt.1, FP.num tgt.2, FP.num 0)) tVec
  let vGaze := FP3.sub gaze ori
  let vTarget := FP3.sub target ori
  let ang2D := fns.angleBetween vTarget vGaze
  let onBoardAngle := fns.atan2F (FP.sub gazeBoard.2 (FP.num tgt.2))
    (FP.sub gazeBoard.1 (FP.num tgt.1))
  (FP.mul ang2D (fns.cosF onBoardAngle), FP.mul ang2D (fns.sinF onBoardAngle))

/-- The per-sample offset array (lines 69–109): when the sample's frame is
not in the pose table the `np.nan` initialisation is kept for every method
and target; otherwise every (method, target) entry is computed with the
frame's Rodrigues rotation and translation. -/
def e1SampleOffsets (fns : TrigFns) (rodriguesF : FP3 → Mat3)
    (pose : Option (FP3 × FP3)) (s : GWSample) (targets : List (ℚ × ℚ)) :
    Fin 4 → List FP2 :=
  match pose with
  | none => fun _ => targets.map (fun _ => (FP.nan, FP.nan))
  | some rt => fun e => targets.map (e1Offset fns (rodriguesF rt.1) rt.2 s e)

/-- The projected camera-frame gaze point of each method, in the spec's
terms. -/
def specGaze3D (s : GWSample) : Fin 4 → FP3
  | 0 => s.lGaze3D
  | 1 => s.rGaze3D
  | 2 => s.gaze3DRay
  | 3 => s.gaze3DHomography

/-- The board-plane projected gaze point of each method, in the spec's
terms. -/
def specGaze2D (s : GWSample) : Fin 4 → FP2
  | 0 => s.lGaze2D
  | 1 => s.rGaze2D
  | 2 => s.gaze2DRay
  | 3 => s.gaze2DHomography

/-- The ray origin of each method, in the spec's terms: "the eye/ray origin
of that method and the zero vector for the two camera-centered methods
(3D-gaze-ray and homography)". -/
def specOrigin (s : GWSample) : Fin 4 → FP3
  | 0 => s.lGazeOrigin
  | 1 => s.rGazeOrigin
  | 2 => fp3zero
  | 3 => fp3zero

/-- Definition following the spec's words for claim C6: "the offset is
computed as the 3D angle between the vector from origin to target and the
vector from origin to projected gaze point … and is decomposed into a
2-vector offset = angle · (cos(bearing), sin(bearing)), where bearing is
atan2 of the board-plane delta-y, delta-x from the target to the projected
point." -/
def offsetSpecC6 (fns : TrigFns) (RBoard : Mat3) (tVec : FP3)
    (s : GWSample) (e : Fin 4) (tgt : ℚ × ℚ) : FP2 :=
  let ori := specOrigin s e
  let target := FP3.add
    (Mat3.mulVec RBoard (FP.num tgt.1, FP.num tgt.2, FP.num 0)) tVec
  let angle := fns.angleBetween (FP3.sub target ori)
    (FP3.sub (specGaze3D s e) ori)
  let bearing := fns.atan2F (FP.sub (specGaze2D s e).2 (FP.num tgt.2))
    (FP.sub (specGaze2D s e).1 (FP.num tgt.1))
  (FP.mul angle (fns.cosF bearing), FP.mul angle (fns.sinF bearing))

/-- Claim C6 (confirmed): for every sample, projection method and target —
and for every implementation of the angle/trigonometric library functions —
the offset computed by `e1_computeOffsetsToTargets.process` equals the
spec's formula: the 3D angle between origin→target and origin→projected
gaze point (origin being the eye/ray origin for the two eye methods and the
zero vector for the two camera-centred methods), decomposed as
angle · (cos(bearing), sin(bearing)) with bearing the atan2 of the
board-plane delta from the target to the projected point. -/
theorem claim_C6_offset_decomposition (fns : TrigFns) (RBoard : Mat3)
    (tVec : FP3) (s : GWSample) (e : Fin 4) (tgt : ℚ × ℚ) :
    e1Offset fns RBoard tVec s e tgt = offsetSpecC6 fns RBoard tVec s e tgt := by
  fin_cases e <;> rfl

/-- A concrete implementation of the trigonometric capabilities for
instantiations: the angle is NaN when an input vector has a NaN component
and 0 otherwise. -/
def trigW : TrigFns :=
  ⟨fun v w => if v.hasNan || w.hasNan then FP.nan else FP.num 0,
   fun _ _ => FP.num 0, fun _ => FP.num 1, fun _ => FP.num 0⟩

/-- A concrete Rodrigues implementation for instantiations: always the
identity rotation. -/
def rodW : FP3 → Mat3 :=
  fun _ => ((FP.num 1, FP.num 0, FP.num 0), (FP.num 0, FP.num 1, FP.num 0),
    (FP.num 0, FP.num 0, FP.num 1))

/-- A sample whose homography projection succeeded (board-plane point
(1, 1)) but whose per-eye data is missing. -/
def sampleH : GWSample :=
  ⟨fp3nan, fp3nan, fp3nan, fp3nan, (FP.num 0, FP.num 0, FP.num 10),
   (FP.num 1, FP.num 1, FP.num 10), (FP.nan, FP.nan), (FP.nan, FP.nan),
   (FP.num 0, FP.num 0), (FP.num 1, FP.num 1)⟩

/-- Claim C7 counterexample: a sample with a valid homography board-plane
point (1, 1) whose frame has no entry in the pose table
(`if frameIdxs[s] not in rVec: continue`, `e1_computeOffsetsToTargets.py`
line 73) gets no downstream target offset: the homography-method offset
stays at its NaN initialisation, refuting "(and a downstream target
offset) even when that frame has no full 3D pose". -/
theorem claim_C7_counterexample :
    sampleH.gaze2DHomography = (FP.num 1, FP.num 1)
    ∧ e1SampleOffsets trigW rodW none sampleH [(0, 0)] 3 =
        [(FP.nan, FP.nan)] := by decide

/-- Claim C7 as amended: applying the frame's homography to the 2D gaze
point yields a board-plane point with no 3D pose (the homography fields are
carried per sample, independent of the pose table), but the downstream
target offset additionally requires the frame's 3D pose: a sample whose
frame is absent from the pose table keeps NaN offsets for the homography
method, and when the pose is present the homography-method offset is
computed from the sample's homography fields with the zero origin, the
target being placed with the frame's Rodrigues rotation and translation. -/
theorem claim_C7_amended (fns : TrigFns) (rodriguesF : FP3 → Mat3)
    (s : GWSample) (targets : List (ℚ × ℚ)) :
    e1SampleOffsets fns rodriguesF none s targets 3 =
      targets.map (fun _ => (FP.nan, FP.nan))
    ∧ ∀ rv tv, e1SampleOffsets fns rodriguesF (some (rv, tv)) s targets 3 =
        targets.map (fun tgt =>
          let target := FP3.add
            (Mat3.mulVec (rodriguesF rv) (FP.num tgt.1, FP.num tgt.2, FP.num 0))
            tv
          let angle := fns.angleBetween (FP3.sub target fp3zero)
            (FP3.sub s.gaze3DHomography fp3zero)
          let bearing := fns.atan2F
            (FP.sub s.gaze2DHomography.2 (FP.num tgt.2))
            (FP.sub s.gaze2DHomography.1 (FP.num tgt.1))
          (FP.mul angle (fns.cosF bearing), FP.mul angle (fns.sinF bearing))) := by
  exact ⟨rfl, fun rv tv => rfl⟩

/-! ## c_gazeToBoard.py: per-eye board positions and their average

`process` (lines 239–252) records an eye's board-plane position only when
the camera-frame intersection is not NaN (`if not math.isnan(gBoard[0])`),
writing NaN to the output row otherwise, and computes the board-space
average gaze point only when both eyes' positions were recorded
(`if 'left' in offsets and 'right' in offsets`). -/

/-- Transpose of a row-major 3×3 matrix. -/
def Mat3.transposeM (m : Mat3) : Mat3 :=
  ((m.1.1, m.2.1.1, m.2.2.1),
   (m.1.2.1, m.2.1.2.1, m.2.2.2.1),
   (m.1.2.2, m.2.1.2.2, m.2.2.2.2))

/-- Elementwise negation of a 3×3 matrix. -/
def Mat3.negM (m : Mat3) : Mat3 := (FP3.neg m.1, FP3.neg m.2.1, FP3.neg m.2.2)

/-- `RtBoardInv @ [g, 1]` with `RtBoardInv = hstack(R.T, -R.T @ t)`
(`c_gazeToBoard.py` line 196): the inverse rigid transform taking a
camera-frame point to board space. -/
def rtBoardInvApply (R : Mat3) (t : FP3) (g : FP3) : FP3 :=
  FP3.add (Mat3.mulVec (Mat3.transposeM R) g)
    (Mat3.mulVec (Mat3.negM (Mat3.transposeM R)) t)

/-- Lines 239–246: the board-space position of one eye, recorded in the
`offsets` dict only when the camera-frame intersection's first component is
not NaN; `none` models the key being absent. -/
def eyeBoardPos (R : Mat3) (t : FP3) (gBoard : FP3) : Option FP2 :=
  if gBoard.1.isNan then none
  else
    let xyz := rtBoardInvApply R t gBoard
    some (xyz.1, xyz.2.1)

/-- Lines 250–252: the board-space average gaze point, computed as the
component mean of the two eyes' positions, and only when both keys are
present in `offsets`. -/
def averageBoardPos (l r : Option FP2) : Option FP2 :=
  match l, r with
  | some a, some b =>
    some (FP.div (FP.add a.1 b.1) (FP.num 2),
          FP.div (FP.add a.2 b.2) (FP.num 2))
  | _, _ => none

/-! ## e2_determineFixationIntervals.py: choosing the series fed to I2MC

Lines 72–92: per recording, boolean flags record whether any sample has a
non-NaN board-plane point for each of the four data sources; the series
handed to the fixation classifier is built from the left and right eye
series when both eyes have data, else from the 3D-gaze-ray series, else
from the homography series, and otherwise
`raise RuntimeError('No data available to process')`. -/

/-- `np.any(np.logical_not(np.isnan(...)))` over one 2D point: some
component is not NaN. -/
def fp2HasData (p : FP2) : Bool := !p.1.isNan || !p.2.isNan

/-- Any sample has left-eye board-plane data (line 72). -/
def qHasLeftB (series : List GWSample) : Bool :=
  series.any (fun s => fp2HasData s.lGaze2D)

/-- Any sample has right-eye board-plane data (line 73). -/
def qHasRightB (series : List GWSample) : Bool :=
  series.any (fun s => fp2HasData s.rGaze2D)

/-- Any sample has 3D-gaze-ray board-plane data (line 74). -/
def qHasRayB (series : List GWSample) : Bool :=
  series.any (fun s => fp2HasData s.gaze2DRay)

/-- Any sample has homography board-plane data (line 75). -/
def qHasHomB (series : List GWSample) : Bool :=
  series.any (fun s => fp2HasData s.gaze2DHomography)

/-- The position series handed to the fixation classifier: both eyes'
series, or a single fallback series (labelled `average_X`/`average_Y` in the
source). -/
inductive I2MCInput where
  | leftRight (l r : List FP2) : I2MCInput
  | averaged (xy : List FP2) : I2MCInput
deriving DecidableEq, Repr

/-- The data-selection branch of `e2_determineFixationIntervals.process`
(lines 80–92); `Except.error` models the `raise RuntimeError`. -/
def buildI2MCData (series : List GWSample) : Except String I2MCInput :=
  if qHasLeftB series && qHasRightB series then
    Except.ok (I2MCInput.leftRight (series.map (fun s => s.lGaze2D))
      (series.map (fun s => s.rGaze2D)))
  else if qHasRayB series then
    Except.ok (I2MCInput.averaged (series.map (fun s => s.gaze2DRay)))
  else if qHasHomB series then
    Except.ok (I2MCInput.averaged (series.map (fun s => s.gaze2DHomography)))
  else Except.error "No data available to process"

/-- Subtracting NaN yields NaN. -/
theorem FP.sub_nan_right (x : FP) : FP.sub x FP.nan = FP.nan := by
  cases x <;> rfl

/-- Multiplying NaN yields NaN. -/
theorem FP.nan_mul (x : FP) : FP.mul FP.nan x = FP.nan := by
  cases x <;> rfl

/-- Subtracting the all-NaN vector yields the all-NaN vector. -/
theorem FP3.sub_nan3 (x : FP3) : FP3.sub x fp3nan = fp3nan := by
  simp [FP3.sub, fp3nan, FP.sub_nan_right]

/-- A sample with the left-eye fields replaced (all other fields kept). -/
def setLeftGW (s : GWSample) (o g3 : FP3) (g2 : FP2) : GWSample :=
  ⟨o, s.rGazeOrigin, g3, s.rGaze3D, s.gaze3DRay, s.gaze3DHomography,
   g2, s.rGaze2D, s.gaze2DRay, s.gaze2DHomography⟩

/-- A sample with every field NaN: no data for any projection method. -/
def sampleNaN : GWSample :=
  ⟨fp3nan, fp3nan, fp3nan, fp3nan, fp3nan, fp3nan, (FP.nan, FP.nan),
   (FP.nan, FP.nan), (FP.nan, FP.nan), (FP.nan, FP.nan)⟩

/-- A sample with left-eye board-plane data only. -/
def sampleLeftOnly : GWSample :=
  ⟨fp3nan, fp3nan, fp3nan, fp3nan, fp3nan, fp3nan, (FP.num 1, FP.num 2),
   (FP.nan, FP.nan), (FP.nan, FP.nan), (FP.nan, FP.nan)⟩

/-- Claim C8 counterexample: missing data is not always silent.  For a
recording in which no projection method has any non-NaN board-plane sample,
`e2_determineFixationIntervals.process` raises
`RuntimeError('No data available to process')` (lines 91–92), so the
absence of sufficient data is raised as an error, refuting "never raised as
an error". -/
theorem claim_C8_counterexample :
    buildI2MCData [sampleNaN] =
      Except.error "No data available to process" := rfl

/-- Claim C8 as amended: within the projection and offset stages, missing
data stays NaN and is method-local — with all left-eye fields NaN the
left-eye method's offsets are NaN for every target (first conjunct, for any
NaN-propagating angle function), and the other three methods' offsets do
not depend on the left-eye fields at all (second conjunct) — but the
fixation-interval stage raises the error 'No data available to process'
exactly when the recording has neither both-eye board-plane data, nor
3D-gaze-ray data, nor homography data (third conjunct). -/
theorem claim_C8_amended (fns : TrigFns) (rodriguesF : FP3 → Mat3)
    (rv tv : FP3) (s : GWSample) (o g3 : FP3) (g2 : FP2)
    (targets : List (ℚ × ℚ)) (series : List GWSample)
    (hAB : ∀ v w : FP3, v.hasNan = true → fns.angleBetween v w = FP.nan)
    (hLeft : s.lGazeOrigin = fp3nan) :
    e1SampleOffsets fns rodriguesF (some (rv, tv)) s targets 0 =
      targets.map (fun _ => (FP.nan, FP.nan))
    ∧ (∀ e : Fin 4, e ≠ 0 →
        e1SampleOffsets fns rodriguesF (some (rv, tv)) (setLeftGW s o g3 g2)
            targets e =
          e1SampleOffsets fns rodriguesF (some (rv, tv)) s targets e)
    ∧ (buildI2MCData series = Except.error "No data available to process" ↔
        (qHasLeftB series && qHasRightB series) = false
        ∧ qHasRayB series = false ∧ qHasHomB series = false) := by
  refine ⟨?_, ?_, ?_⟩
  · rw [e1SampleOffsets]
    apply List.map_congr_left
    intro tgt _
    rw [e1Offset]
    simp only [methodData, hLeft]
    rw [FP3.sub_nan3, hAB fp3nan _ rfl, FP.nan_mul, FP.nan_mul]
  · intro e he
    fin_cases e
    · exact absurd rfl he
    · rfl
    · rfl
    · rfl
  · rw [buildI2MCData]
    cases h1 : qHasLeftB series && qHasRightB series
    · cases h2 : qHasRayB series
      · cases h3 : qHasHomB series
        · simp
        · simp
      · simp
    · simp

/-- Witness for the amended claim C8: with the NaN-propagating angle
function `trigW` and the sample `sampleH` (all left-eye fields NaN), the
left-eye method's offset for the single target is NaN. -/
theorem claim_C8_witness :
    e1SampleOffsets trigW rodW (some (fp3zero, fp3zero)) sampleH
      [(0, 0)] 0 = [(FP.nan, FP.nan)] :=
  (claim_C8_amended trigW rodW fp3zero fp3zero sampleH fp3zero fp3zero
    (FP.num 0, FP.num 0) [(0, 0)] []
    (fun v w h => by simp [trigW, h]) rfl).1

/-- Claim C9 counterexample: the series fed to fixation classification is
not "computed from whichever eye data exists".  For a recording that has
left-eye board-plane data but no right-eye, 3D-gaze-ray or homography data,
`e2_determineFixationIntervals.process` does not use the left-eye data: it
raises `RuntimeError('No data available to process')` (lines 80–92), since
both eyes must have data for the eye series to be used and no fallback
series exists. -/
theorem claim_C9_counterexample :
    qHasLeftB [sampleLeftOnly] = true
    ∧ buildI2MCData [sampleLeftOnly] =
        Except.error "No data available to process" := ⟨rfl, rfl⟩

/-- Claim C9 as amended: the board-space average gaze point is computed iff
both eyes produced a board-plane intersection (first conjunct, exactly as
claimed); but the position series fed to fixation classification is built
from the eye series iff both eyes have data somewhere in the recording
(second conjunct), and when only one eye has data the classifier input
falls back to the 3D-gaze-ray series, then to the homography series, and
otherwise raises — a single eye's data alone is never used (third
conjunct). -/
theorem claim_C9_amended (R : Mat3) (t : FP3) (gL gR : FP3)
    (series : List GWSample) :
    ((averageBoardPos (eyeBoardPos R t gL) (eyeBoardPos R t gR)).isSome ↔
      gL.1.isNan = false ∧ gR.1.isNan = false)
    ∧ ((∃ l r, buildI2MCData series = Except.ok (I2MCInput.leftRight l r)) ↔
        (qHasLeftB series && qHasRightB series) = true)
    ∧ (qHasLeftB series = true → qHasRightB series = false →
        buildI2MCData series =
          Except.ok (I2MCInput.averaged (series.map (fun s => s.gaze2DRay)))
        ∨ buildI2MCData series =
          Except.ok (I2MCInput.averaged
            (series.map (fun s => s.gaze2DHomography)))
        ∨ buildI2MCData series =
          Except.error "No data available to process") := by
  refine ⟨?_, ?_, ?_⟩
  · cases hL : gL.1.isNan
    · cases hR : gR.1.isNan
      · simp [eyeBoardPos, averageBoardPos, hL, hR]
      · simp [eyeBoardPos, averageBoardPos, hL, hR]
    · simp [eyeBoardPos, averageBoardPos, hL]
  · rw [buildI2MCData]
    cases h1 : qHasLeftB series && qHasRightB series
    · cases h2 : qHasRayB series
      · cases h3 : qHasHomB series
        · simp
        · simp
      · simp
    · simp
  · intro hL hR
    rw [buildI2MCData]
    have h1 : (qHasLeftB series && qHasRightB series) = false := by
      simp [hL, hR]
    rw [h1]
    cases h2 : qHasRayB series
    · cases h3 : qHasHomB series
      · simp
      · simp
    · simp

/-- Witness for the amended claim C9: instantiated at the left-eye-only
recording `[sampleLeftOnly]`, the classifier input is one of the two
fallback series or the error — and by `claim_C9_counterexample` it is in
fact the error. -/
theorem claim_C9_witness :
    buildI2MCData [sampleLeftOnly] =
      Except.ok (I2MCInput.averaged
        ([sampleLeftOnly].map (fun s => s.gaze2DRay)))
    ∨ buildI2MCData [sampleLeftOnly] =
      Except.ok (I2MCInput.averaged
        ([sampleLeftOnly].map (fun s => s.gaze2DHomography)))
    ∨ buildI2MCData [sampleLeftOnly] =
      Except.error "No data available to process" :=
  (claim_C9_amended ((fp3zero, fp3zero, fp3zero) : Mat3) fp3zero fp3nan
    fp3nan [sampleLeftOnly]).2.2 rfl rfl

/-! ## c_gazeToBoard.py: the frame-index-to-timestamp lookup -/

/-- The `Idx2Timestamp` class (`c_gazeToBoard.py` lines 56–69): the
timestamps read from `frameTimestamps.tsv`, in file order. -/
structure Idx2Timestamp where
  timestamps : List ℚ
deriving DecidableEq, Repr

/-- `Idx2Timestamp.get` (lines 64–69): an in-range index returns the stored
timestamp; an out-of-range index warns and returns `timestamps[-1]`, the
last stored timestamp.  `Option` models the possible `IndexError` of
`timestamps[-1]` on an empty list; for a nonempty list the result is always
`some`. -/
def Idx2Timestamp.get (i2t : Idx2Timestamp) (idx : Nat) : Option ℚ :=
  if idx < i2t.timestamps.length then i2t.timestamps.get? idx
  else i2t.timestamps.getLast?

/-- Claim C10 (confirmed): for every queried index below the number of
stored timestamps the lookup returns the timestamp stored at that index;
for every index at or past the end it returns the last stored timestamp;
and on a nonempty timestamp list it never fails. -/
theorem claim_C10_idx2timestamp (i2t : Idx2Timestamp) (idx : Nat) :
    (∀ h : idx < i2t.timestamps.length,
      i2t.get idx = some (i2t.timestamps.get ⟨idx, h⟩))
    ∧ (i2t.timestamps.length ≤ idx → i2t.get idx = i2t.timestamps.getLast?)
    ∧ (i2t.timestamps ≠ [] → (i2t.get idx).isSome = true) := by
  refine ⟨?_, ?_, ?_⟩
  · intro h
    rw [Idx2Timestamp.get, if_pos h]
    exact List.get?_eq_get h
  · intro h
    rw [Idx2Timestamp.get, if_neg (by omega)]
  · intro h
    rw [Idx2Timestamp.get]
    by_cases hlt : idx < i2t.timestamps.length
    · rw [if_pos hlt, List.get?_eq_get hlt]
      rfl
    · rw [if_neg hlt]
      simp [List.getLast?_isSome, h]

/-- Witness for claim C10: querying index 5 of a table with two timestamps
returns the last one. -/
theorem claim_C10_witness :
    Idx2Timestamp.get ⟨[10, 20]⟩ 5 = some 20 :=
  ((claim_C10_idx2timestamp ⟨[10, 20]⟩ 5).2.1 (by decide)).trans rfl
